import Mathlib

/-!
# Verification of the real-time broadcast hub

Shallow embedding of the WebSocket broadcast hub that recurs in the
task-management and chat example backends:

* chat-hub variant: `Hub` over `rooms map[uint]map[*Client]bool`
  (`hub.go`, source part_013), envelope `Message` (part_012), client
  pumps (part_014);
* task-hub variant: `Hub` over `projects map[uint]map[*Client]bool`
  (part_007) together with the production-template `client.go`.

Go maps are embedded as association lists over `Nat` keys; a `*Client`
is identified by an opaque `Nat` id whose immutable identity fields
(`RoomID`, `UserID`) live in an environment `env : Nat → ClientInfo`.
A client's bounded outbound channel (`send`, capacity 256) is a list
plus a closed flag; `closeCount` counts calls of Go's `close` so that
"closed exactly once" is expressible.
-/

namespace Hub

/-- Association-list lookup, embedding Go's `m[k]` two-result read. -/
def lookupA {α : Type} : Nat → List (Nat × α) → Option α
  | _, [] => none
  | k, (k', v) :: rest => if k = k' then some v else lookupA k rest

/-- Association-list insert/overwrite, embedding Go's `m[k] = v`. -/
def setA {α : Type} (k : Nat) (v : α) : List (Nat × α) → List (Nat × α)
  | [] => [(k, v)]
  | (k', v') :: rest => if k = k' then (k, v) :: rest else (k', v') :: setA k v rest

/-- Association-list key removal, embedding Go's `delete(m, k)`. -/
def eraseA {α : Type} (k : Nat) : List (Nat × α) → List (Nat × α)
  | [] => []
  | (k', v') :: rest => if k = k' then rest else (k', v') :: eraseA k rest

/-- Update the value stored at `k`, when present. -/
def modifyA {α : Type} (k : Nat) (f : α → α) : List (Nat × α) → List (Nat × α)
  | [] => []
  | (k', v') :: rest => if k = k' then (k, f v') :: rest else (k', v') :: modifyA k f rest

/-- Message type tags are open strings in the source (`type MessageType string`). -/
abbrev MsgType := String

/-- `MessageTypeTyping MessageType = "TYPING"` (chat message_types file, part_012). -/
def MessageTypeTyping : MsgType := "TYPING"

/-- `TypeTaskCreated MessageType = "TASK_CREATED"` (task hub, part_007). -/
def TypeTaskCreated : MsgType := "TASK_CREATED"

/-- `TypeUserJoined MessageType = "USER_JOINED"` (task hub, part_007). -/
def TypeUserJoined : MsgType := "USER_JOINED"

/-- Chat-hub envelope (part_012 `Message`): type, room id, user id, opaque
JSON payload (embedded as a `Nat` tag), timestamp (embedded as a `Nat`). -/
structure Message where
  type : MsgType
  roomID : Nat
  userID : Nat
  data : Nat
  timestamp : Nat
deriving DecidableEq, Repr

/-- Task-hub envelope (part_007 `Message`): type, project id, user id, payload. -/
structure TMessage where
  type : MsgType
  projectID : Nat
  userID : Nat
  payload : Nat
deriving DecidableEq, Repr

/-- The immutable identity fields of a `*Client` (part_014: `RoomID`, `UserID`;
part_007 client: `ProjectID`, `UserID` — both are "the room key" + owner). -/
structure ClientInfo where
  roomID : Nat
  userID : Nat
deriving DecidableEq, Repr

/-- A client's bounded outbound channel `send` (`make(chan *Message, 256)`).
`closeCount` counts invocations of Go's `close` on it. -/
structure SendQueue (M : Type) where
  buf : List M
  closed : Bool
  closeCount : Nat
deriving DecidableEq, Repr

/-- A fresh open channel, as created by `NewClient`. -/
def SendQueue.empty {M : Type} : SendQueue M := ⟨[], false, 0⟩

/-- Go's `close(client.send)`. -/
def SendQueue.closeCh {M : Type} (q : SendQueue M) : SendQueue M :=
  { q with closed := true, closeCount := q.closeCount + 1 }

/-- The channel capacity from `make(chan *Message, 256)`. -/
def queueCap : Nat := 256

/-- The hub's mutable state: `rooms map[uint]map[*Client]bool` (the room-set
mapping, inner sets as duplicate-free lists of client ids) together with the
outbound channel of every live client. -/
structure HubState (M : Type) where
  rooms : List (Nat × List Nat)
  queues : List (Nat × SendQueue M)
deriving DecidableEq, Repr

/-- The per-variant parameters of `broadcastMessage`: which envelope field keys
the room-set, which carries the originating user, and the echo-suppression
test of the `continue` branch inside the fan-out loop. -/
structure HubKind (M : Type) where
  roomOf : M → Nat
  userOf : M → Nat
  suppress : ClientInfo → M → Bool

/-- Chat hub (part_013 line 94): only typing indicators are skipped for
connections whose user id equals the message's user id. -/
def chatKind : HubKind Message :=
  ⟨Message.roomID, Message.userID,
    fun c m => m.type == MessageTypeTyping && c.userID == m.userID⟩

/-- Task hub (part_007 line 130): every message is skipped for connections
whose user id equals the message's user id, regardless of type. -/
def taskKind : HubKind TMessage :=
  ⟨TMessage.projectID, TMessage.userID, fun c m => c.userID == m.userID⟩

/-- `Hub.registerClient` (part_013 lines 50-61, part_007 lines 61-82): ensure
the room's set exists and add the client to it (a Go map insert of a present
key is a no-op on the set). -/
def registerClient {M : Type} (env : Nat → ClientInfo) (cid : Nat)
    (s : HubState M) : HubState M :=
  if cid ∈ (lookupA (env cid).roomID s.rooms).getD [] then s
  else
    { s with
      rooms := setA (env cid).roomID
        ((lookupA (env cid).roomID s.rooms).getD [] ++ [cid]) s.rooms }

/-- `Hub.unregisterClient` (part_013 lines 63-81, part_007 lines 84-111): if
the client is present in its room's set, delete it, `close(client.send)`, and
delete the room entry when the set became empty; otherwise do nothing. -/
def unregisterClient {M : Type} (env : Nat → ClientInfo) (cid : Nat)
    (s : HubState M) : HubState M :=
  match lookupA (env cid).roomID s.rooms with
  | none => s
  | some clients =>
    if cid ∈ clients then
      if (clients.erase cid).isEmpty then
        { rooms := eraseA (env cid).roomID s.rooms,
          queues := modifyA cid SendQueue.closeCh s.queues }
      else
        { rooms := setA (env cid).roomID (clients.erase cid) s.rooms,
          queues := modifyA cid SendQueue.closeCh s.queues }
    else s

/-- One iteration of the fan-out loop in `broadcastMessage`
(part_013 lines 92-105, part_007 lines 128-141): skip echo-suppressed
recipients; otherwise perform the non-blocking `select` send — enqueue when
the channel has room, else `close(client.send); delete(clients, client)`.
Returns the updated channel and whether the client stays in the room's set. -/
def deliverTo {M : Type} (K : HubKind M) (env : Nat → ClientInfo) (m : M)
    (cid : Nat) (q : SendQueue M) : SendQueue M × Bool :=
  if K.suppress (env cid) m then (q, true)
  else if q.buf.length < queueCap then ({ q with buf := q.buf ++ [m] }, true)
  else (q.closeCh, false)

/-- Fold step over the room's client set: thread the queues map and the
accumulated surviving members of the set. -/
def bcastStep {M : Type} (K : HubKind M) (env : Nat → ClientInfo) (m : M)
    (st : List (Nat × SendQueue M) × List Nat) (cid : Nat) :
    List (Nat × SendQueue M) × List Nat :=
  match lookupA cid st.1 with
  | none => (st.1, st.2 ++ [cid])
  | some q =>
    let dq := deliverTo K env m cid q
    (setA cid dq.1 st.1, if dq.2 then st.2 ++ [cid] else st.2)

/-- `Hub.broadcastMessage` (part_013 lines 83-106, part_007 lines 113-142):
look up the room's set (absent room: silent no-op) and fan out to each member.
Note the source never deletes the room entry here, even when the slow-consumer
branch empties the set — the surviving (possibly empty) set is what remains
under the room key. -/
def broadcastMessage {M : Type} (K : HubKind M) (env : Nat → ClientInfo) (m : M)
    (s : HubState M) : HubState M :=
  match lookupA (K.roomOf m) s.rooms with
  | none => s
  | some clients =>
    let res := clients.foldl (bcastStep K env m) (s.queues, [])
    { rooms := setA (K.roomOf m) res.2 s.rooms, queues := res.1 }

/-- `Hub.GetOnlineUsers` (part_013 lines 124-141): collect the distinct user
ids of the room's members (the `userIDs` set keeps one entry per user); a pure
read — the state is returned untouched to make that observable. -/
def GetOnlineUsers {M : Type} (env : Nat → ClientInfo) (roomID : Nat)
    (s : HubState M) : List Nat × HubState M :=
  match lookupA roomID s.rooms with
  | none => ([], s)
  | some clients => ((clients.map (fun c => (env c).userID)).dedup, s)

/-- Well-formedness a Go map state always has: distinct room keys and
duplicate-free member sets (a Go `map[*Client]bool` cannot hold a key twice). -/
def WFState {M : Type} (s : HubState M) : Prop :=
  (s.rooms.map Prod.fst).Nodup ∧ ∀ p ∈ s.rooms, (p.2 : List Nat).Nodup

/-- The registry invariant claimed by the spec: a room id is a key of the
room-set mapping only while its set is non-empty. -/
def roomsInvariant {M : Type} (s : HubState M) : Prop :=
  ∀ p ∈ s.rooms, (p.2 : List Nat) ≠ []

/-- The requests the hub's serialization point processes (`Hub.Run`'s select
over the register / unregister / broadcast channels). -/
inductive HubOp (M : Type) where
  | reg (cid : Nat)
  | unreg (cid : Nat)
  | bcast (m : M)

/-- `NewClient`: the outbound channel exists (open, empty) before `Register`
is called; no-op when the id already has one. -/
def ensureQueue {M : Type} (cid : Nat) (s : HubState M) : HubState M :=
  match lookupA cid s.queues with
  | some _ => s
  | none => { s with queues := s.queues ++ [(cid, SendQueue.empty)] }

/-- One step of the dispatcher loop (`Hub.Run`, part_013 lines 35-48). -/
def execOp {M : Type} (K : HubKind M) (env : Nat → ClientInfo)
    (s : HubState M) : HubOp M → HubState M
  | .reg cid => registerClient env cid (ensureQueue cid s)
  | .unreg cid => unregisterClient env cid s
  | .bcast m => broadcastMessage K env m s

/-- The registry state reached by running a request sequence from the fresh
hub of `NewHub` (empty room map, no clients). -/
def execOps {M : Type} (K : HubKind M) (env : Nat → ClientInfo)
    (ops : List (HubOp M)) : HubState M :=
  ops.foldl (execOp K env) ⟨[], []⟩

/-! Write pump (part_014 `Client.WritePump`, lines 98-153): on a queued
message, write it, then batch `n := len(c.send)` further queued messages into
the same transport frame, and repeat. The fuel argument only bounds the outer
`for` loop; one outer iteration always drains the whole current queue. -/

/-- The inner `for i := 0; i < n; i++ { msg := <-c.send; ... }` batch drain:
take `n` messages off the front of the queue. -/
def takeFromQueue {M : Type} : Nat → List M → List M × List M
  | 0, q => ([], q)
  | _ + 1, [] => ([], [])
  | n + 1, x :: q =>
    let r := takeFromQueue n q
    (x :: r.1, r.2)

/-- The outer write loop: each iteration sends one frame holding the head
message plus the `len(c.send)`-sized batch behind it. -/
def writePumpFramesAux {M : Type} : Nat → List M → List (List M)
  | 0, _ => []
  | _ + 1, [] => []
  | fuel + 1, x :: q =>
    let t := takeFromQueue q.length q
    (x :: t.1) :: writePumpFramesAux fuel t.2

/-- All transport frames the write pump produces when draining queue `q`
with no concurrent enqueues. -/
def writePumpFrames {M : Type} (q : List M) : List (List M) :=
  writePumpFramesAux (q.length + 1) q

/-- The transport-level delivery sequence: frame contents in emission order. -/
def writePumpDelivered {M : Type} (q : List M) : List M :=
  (writePumpFrames q).flatten

/-! Read pump (part_014 `Client.ReadPump`, lines 63-86). -/

/-- What one `conn.ReadMessage()` call yields: a raw data frame (bytes,
embedded as `List Nat`) or a transport error (which breaks the loop). -/
inductive Frame where
  | data (raw : List Nat)
  | errFrame
deriving DecidableEq, Repr

/-- Part_014 lines 78-81: `message.RoomID = c.RoomID; message.UserID =
c.UserID; message.Timestamp = time.Now()` — the connection's identity
overwrites whatever the client supplied. -/
def applyClientInfo (c : ClientInfo) (now : Nat) (m : Message) : Message :=
  { m with roomID := c.roomID, userID := c.userID, timestamp := now }

/-- The read loop, parameterized by the JSON decoder (`json.Unmarshal`):
returns the messages forwarded to `hub.Broadcast` in order, and whether the
loop broke out (running the deferred `hub.Unregister(c)`). A malformed frame
is logged and skipped (`continue`); only a transport error exits the loop. -/
def readPumpLoop (decode : List Nat → Option Message) (c : ClientInfo)
    (now : Nat) : List Frame → List Message × Bool
  | [] => ([], false)
  | .errFrame :: _ => ([], true)
  | .data b :: rest =>
    match decode b with
    | none => readPumpLoop decode c now rest
    | some m =>
      let r := readPumpLoop decode c now rest
      (applyClientInfo c now m :: r.1, r.2)

/-! Static lock/mutation structure of the hub methods (for the concurrency
discipline claim): each method of part_013 is summarized by the sequence of
room-set-mapping accesses it performs and the lock mode it holds at each. -/

/-- Which of `h.mu`'s modes a statement runs under. -/
inductive LockMode where
  | noLock
  | readLock
  | writeLock
deriving DecidableEq, Repr

/-- The room-set-mapping accesses relevant to the serialization claim. -/
inductive HubEffect where
  | readRoomSet
  | mutateRoomSet
  | enqueueEvent
  | closeClientQueue
deriving DecidableEq, Repr

/-- A single access together with the lock mode held while performing it. -/
structure LockEvent where
  mode : LockMode
  eff : HubEffect
deriving DecidableEq, Repr

/-- The hub methods that touch the room-set mapping (part_013). -/
inductive HubMethod where
  | registerClientM
  | unregisterClientM
  | broadcastMessageM
  | getOnlineUsersM
  | getRoomCountM
  | getClientCountM
deriving DecidableEq, Repr

/-- Lock/access trace of each method, read off part_013:
`registerClient` (50-61): `mu.Lock()`, creates/extends a room set;
`unregisterClient` (63-81): `mu.Lock()`, reads, deletes member and possibly
the room key, closes the channel;
`broadcastMessage` (83-106): `mu.RLock()` only, reads the set, enqueues, and
in the slow-consumer branch closes the channel and `delete(clients, client)` —
a mutation of the room-set mapping under the read lock;
the `Get*` readers (124-160): `mu.RLock()`, reads only. -/
def eventsOf : HubMethod → List LockEvent
  | .registerClientM => [⟨.writeLock, .readRoomSet⟩, ⟨.writeLock, .mutateRoomSet⟩]
  | .unregisterClientM =>
    [⟨.writeLock, .readRoomSet⟩, ⟨.writeLock, .mutateRoomSet⟩,
     ⟨.writeLock, .closeClientQueue⟩]
  | .broadcastMessageM =>
    [⟨.readLock, .readRoomSet⟩, ⟨.readLock, .enqueueEvent⟩,
     ⟨.readLock, .closeClientQueue⟩, ⟨.readLock, .mutateRoomSet⟩]
  | .getOnlineUsersM => [⟨.readLock, .readRoomSet⟩]
  | .getRoomCountM => [⟨.readLock, .readRoomSet⟩]
  | .getClientCountM => [⟨.readLock, .readRoomSet⟩]

/-- Whether a method is invoked only from the dispatcher loop `Hub.Run`
(part_013 lines 35-48): `registerClient` / `unregisterClient` /
`broadcastMessage` have no other caller in the package — the exported
`Register` / `Unregister` / `Broadcast` only feed the channels `Run` reads. -/
def invokedFromDispatcherOnly : HubMethod → Bool
  | .registerClientM => true
  | .unregisterClientM => true
  | .broadcastMessageM => true
  | .getOnlineUsersM => false
  | .getRoomCountM => false
  | .getClientCountM => false

/-! ### Concrete scenario inputs (for counterexamples and witnesses) -/

/-- Two task-hub connections in project 10: client 0 is user 1 (the sender),
client 1 is user 2. -/
def envTask2 : Nat → ClientInfo
  | 0 => ⟨10, 1⟩
  | _ => ⟨10, 2⟩

/-- Task-hub registry with both connections in project 10, both channels
open and empty. -/
def stTask2 : HubState TMessage :=
  ⟨[(10, [0, 1])], [(0, SendQueue.empty), (1, SendQueue.empty)]⟩

/-- A `TASK_CREATED` event originated by user 1 in project 10. -/
def msgTaskCreated : TMessage := ⟨TypeTaskCreated, 10, 1, 0⟩

/-- Chat-hub spec scenario: C1(user=1,room=10), C2(user=2,room=10),
C3(user=3,room=20). -/
def envChat3 : Nat → ClientInfo
  | 0 => ⟨10, 1⟩
  | 1 => ⟨10, 2⟩
  | _ => ⟨20, 3⟩

/-- The chat-hub registry for that scenario, all channels open and empty. -/
def stChat3 : HubState Message :=
  ⟨[(10, [0, 1]), (20, [2])],
   [(0, SendQueue.empty), (1, SendQueue.empty), (2, SendQueue.empty)]⟩

/-- A `TASK_CREATED` envelope from user 1 to room 10. -/
def msgChatCreated : Message := ⟨TypeTaskCreated, 10, 1, 0, 0⟩

/-- A typing indicator from user 1 in room 10. -/
def msgChatTyping : Message := ⟨MessageTypeTyping, 10, 1, 0, 0⟩

/-- A chat message from user 2 to room 10 (not echo-suppressed for user 1). -/
def msgChatFromU2 : Message := ⟨"NEW_MESSAGE", 10, 2, 0, 0⟩

/-- A channel filled to its 256-slot capacity (the writer stalled). -/
def fullQueue : SendQueue Message := ⟨List.replicate queueCap msgChatFromU2, false, 0⟩

/-- Room 10 where client 0's channel is full and client 1's is open/empty. -/
def stSlow : HubState Message :=
  ⟨[(10, [0, 1])], [(0, fullQueue), (1, SendQueue.empty)]⟩

/-- Request sequence reaching a state that violates the room-cleanup
invariant: register client 0 (room 10, user 1), then broadcast 257 messages
from user 2 — the 257th finds client 0's channel full, closes it and deletes
the client, leaving room 10's key mapped to the empty set. -/
def opsLeak : List (HubOp Message) :=
  HubOp.reg 0 :: List.replicate (queueCap + 1) (HubOp.bcast msgChatFromU2)

/-- The single-client environment for `opsLeak`. -/
def envLeak : Nat → ClientInfo := fun _ => ⟨10, 1⟩

/-! ### Association-list lemmas -/

theorem lookupA_setA_self {α : Type} (k : Nat) (v : α) (l : List (Nat × α)) :
    lookupA k (setA k v l) = some v := by
  induction l with
  | nil => simp [lookupA, setA]
  | cons hd tl ih =>
    obtain ⟨k', v'⟩ := hd
    by_cases h : k = k' <;> simp [lookupA, setA, h, ih]

theorem lookupA_setA_ne {α : Type} {k j : Nat} (v : α) (l : List (Nat × α)) (h : j ≠ k) :
    lookupA j (setA k v l) = lookupA j l := by
  induction l with
  | nil => simp [lookupA, setA, h]
  | cons hd tl ih =>
    obtain ⟨k', v'⟩ := hd
    by_cases hk : k = k'
    · subst hk; simp [lookupA, setA, h]
    · by_cases hj : j = k' <;> simp [lookupA, setA, hk, hj, ih]

theorem lookupA_eraseA_ne {α : Type} {k j : Nat} (l : List (Nat × α)) (h : j ≠ k) :
    lookupA j (eraseA k l) = lookupA j l := by
  induction l with
  | nil => simp [eraseA]
  | cons hd tl ih =>
    obtain ⟨k', v'⟩ := hd
    by_cases hk : k = k'
    · subst hk; simp [lookupA, eraseA, h]
    · by_cases hj : j = k' <;> simp [lookupA, eraseA, hk, hj, ih]

theorem lookupA_modifyA_self {α : Type} (k : Nat) (f : α → α) (l : List (Nat × α)) :
    lookupA k (modifyA k f l) = (lookupA k l).map f := by
  induction l with
  | nil => simp [lookupA, modifyA]
  | cons hd tl ih =>
    obtain ⟨k', v'⟩ := hd
    by_cases h : k = k' <;> simp [lookupA, modifyA, h, ih]

theorem lookupA_modifyA_ne {α : Type} {k j : Nat} (f : α → α) (l : List (Nat × α)) (h : j ≠ k) :
    lookupA j (modifyA k f l) = lookupA j l := by
  induction l with
  | nil => simp [modifyA]
  | cons hd tl ih =>
    obtain ⟨k', v'⟩ := hd
    by_cases hk : k = k'
    · subst hk; simp [lookupA, modifyA, h]
    · by_cases hj : j = k' <;> simp [lookupA, modifyA, hk, hj, ih]

/-! ### Fan-out fold lemmas -/

theorem bcastStep_queues_ne {M : Type} (K : HubKind M) (env : Nat → ClientInfo)
    (m : M) (st : List (Nat × SendQueue M) × List Nat) (a c : Nat) (hca : c ≠ a) :
    lookupA c (bcastStep K env m st a).1 = lookupA c st.1 := by
  unfold bcastStep
  cases hla : lookupA a st.1 with
  | none => rfl
  | some q => exact lookupA_setA_ne _ _ hca

theorem bcastStep_surv_ne {M : Type} (K : HubKind M) (env : Nat → ClientInfo)
    (m : M) (st : List (Nat × SendQueue M) × List Nat) (a c : Nat) (hca : c ≠ a) :
    (c ∈ (bcastStep K env m st a).2 ↔ c ∈ st.2) := by
  unfold bcastStep
  cases hla : lookupA a st.1 with
  | none => simp [hca]
  | some q =>
    dsimp
    by_cases hd : (deliverTo K env m a q).2 <;> simp [hd, hca]

theorem bcast_fold_queues_frame {M : Type} (K : HubKind M) (env : Nat → ClientInfo)
    (m : M) (l : List Nat) (c : Nat) (hc : c ∉ l) :
    ∀ st : List (Nat × SendQueue M) × List Nat,
      lookupA c (l.foldl (bcastStep K env m) st).1 = lookupA c st.1 := by
  induction l with
  | nil => intro st; rfl
  | cons a tl ih =>
    intro st
    have hca : c ≠ a := fun h => hc (h ▸ List.mem_cons_self a tl)
    have hctl : c ∉ tl := fun h => hc (List.mem_cons_of_mem a h)
    rw [List.foldl_cons, ih hctl, bcastStep_queues_ne K env m st a c hca]

theorem bcast_fold_surv_frame {M : Type} (K : HubKind M) (env : Nat → ClientInfo)
    (m : M) (l : List Nat) (c : Nat) (hc : c ∉ l) :
    ∀ st : List (Nat × SendQueue M) × List Nat,
      (c ∈ (l.foldl (bcastStep K env m) st).2 ↔ c ∈ st.2) := by
  induction l with
  | nil => intro st; rfl
  | cons a tl ih =>
    intro st
    have hca : c ≠ a := fun h => hc (h ▸ List.mem_cons_self a tl)
    have hctl : c ∉ tl := fun h => hc (List.mem_cons_of_mem a h)
    rw [List.foldl_cons, ih hctl, bcastStep_surv_ne K env m st a c hca]

theorem bcast_fold_queues_of_mem {M : Type} (K : HubKind M) (env : Nat → ClientInfo)
    (m : M) (l : List Nat) (c : Nat) (q : SendQueue M) (hnd : l.Nodup) (hc : c ∈ l) :
    ∀ st : List (Nat × SendQueue M) × List Nat, lookupA c st.1 = some q →
      lookupA c (l.foldl (bcastStep K env m) st).1 = some (deliverTo K env m c q).1 := by
  induction l with
  | nil => exact absurd hc (List.not_mem_nil c)
  | cons a tl ih =>
    intro st hq
    rcases List.mem_cons.mp hc with hac | hctl
    · subst hac
      have hctl : c ∉ tl := (List.nodup_cons.mp hnd).1
      rw [List.foldl_cons, bcast_fold_queues_frame K env m tl c hctl]
      unfold bcastStep
      rw [hq]
      exact lookupA_setA_self _ _ _
    · have hca : c ≠ a := by
        rintro rfl
        exact (List.nodup_cons.mp hnd).1 hctl
      rw [List.foldl_cons]
      refine ih (List.nodup_cons.mp hnd).2 hctl _ ?_
      rw [bcastStep_queues_ne K env m st a c hca, hq]

theorem bcast_fold_surv_of_mem {M : Type} (K : HubKind M) (env : Nat → ClientInfo)
    (m : M) (l : List Nat) (c : Nat) (q : SendQueue M) (hnd : l.Nodup) (hc : c ∈ l) :
    ∀ st : List (Nat × SendQueue M) × List Nat, lookupA c st.1 = some q →
      (c ∈ (l.foldl (bcastStep K env m) st).2 ↔
        c ∈ st.2 ∨ (deliverTo K env m c q).2 = true) := by
  induction l with
  | nil => exact absurd hc (List.not_mem_nil c)
  | cons a tl ih =>
    intro st hq
    rcases List.mem_cons.mp hc with hac | hctl
    · subst hac
      have hctl : c ∉ tl := (List.nodup_cons.mp hnd).1
      rw [List.foldl_cons, bcast_fold_surv_frame K env m tl c hctl]
      unfold bcastStep
      rw [hq]
      by_cases hd : (deliverTo K env m c q).2 <;> simp [hd]
    · have hca : c ≠ a := by
        rintro rfl
        exact (List.nodup_cons.mp hnd).1 hctl
      rw [List.foldl_cons]
      rw [ih (List.nodup_cons.mp hnd).2 hctl _
        (by rw [bcastStep_queues_ne K env m st a c hca, hq]),
        bcastStep_surv_ne K env m st a c hca]

theorem bcast_fold_surv_sublist {M : Type} (K : HubKind M) (env : Nat → ClientInfo)
    (m : M) (l : List Nat) :
    ∀ st : List (Nat × SendQueue M) × List Nat,
      List.Sublist (l.foldl (bcastStep K env m) st).2 (st.2 ++ l) := by
  induction l with
  | nil => intro st; simp
  | cons a tl ih =>
    intro st
    rw [List.foldl_cons]
    have hstep : List.Sublist (bcastStep K env m st a).2 (st.2 ++ [a]) := by
      unfold bcastStep
      cases hla : lookupA a st.1 with
      | none => simp
      | some q =>
        dsimp
        by_cases hd : (deliverTo K env m a q).2 <;> simp [hd]
    have h1 : List.Sublist (tl.foldl (bcastStep K env m) (bcastStep K env m st a)).2
        ((bcastStep K env m st a).2 ++ tl) := ih _
    have h2 : List.Sublist ((bcastStep K env m st a).2 ++ tl) ((st.2 ++ [a]) ++ tl) :=
      hstep.append_right tl
    have h3 : (st.2 ++ [a]) ++ tl = st.2 ++ a :: tl := by simp
    exact h3 ▸ (h1.trans h2)

/-! ### Broadcast-level lemmas -/

theorem broadcast_queues_of_mem {M : Type} (K : HubKind M) (env : Nat → ClientInfo)
    (m : M) (s : HubState M) (clients : List Nat) (c : Nat) (q : SendQueue M)
    (hr : lookupA (K.roomOf m) s.rooms = some clients) (hnd : clients.Nodup)
    (hc : c ∈ clients) (hq : lookupA c s.queues = some q) :
    lookupA c (broadcastMessage K env m s).queues = some (deliverTo K env m c q).1 := by
  unfold broadcastMessage
  rw [hr]
  exact bcast_fold_queues_of_mem K env m clients c q hnd hc (s.queues, []) hq

theorem broadcast_rooms_self {M : Type} (K : HubKind M) (env : Nat → ClientInfo)
    (m : M) (s : HubState M) (clients : List Nat)
    (hr : lookupA (K.roomOf m) s.rooms = some clients) :
    lookupA (K.roomOf m) (broadcastMessage K env m s).rooms =
      some (clients.foldl (bcastStep K env m) (s.queues, [])).2 := by
  unfold broadcastMessage
  rw [hr]
  exact lookupA_setA_self _ _ _

theorem broadcast_surv_iff {M : Type} (K : HubKind M) (env : Nat → ClientInfo)
    (m : M) (s : HubState M) (clients : List Nat) (c : Nat) (q : SendQueue M)
    (hnd : clients.Nodup) (hc : c ∈ clients) (hq : lookupA c s.queues = some q) :
    (c ∈ (clients.foldl (bcastStep K env m) (s.queues, [])).2 ↔
      (deliverTo K env m c q).2 = true) := by
  rw [bcast_fold_surv_of_mem K env m clients c q hnd hc (s.queues, []) hq]
  simp

theorem broadcast_rooms_frame {M : Type} (K : HubKind M) (env : Nat → ClientInfo)
    (m : M) (s : HubState M) (r : Nat) (hr : r ≠ K.roomOf m) :
    lookupA r (broadcastMessage K env m s).rooms = lookupA r s.rooms := by
  unfold broadcastMessage
  cases hl : lookupA (K.roomOf m) s.rooms with
  | none => rfl
  | some clients => exact lookupA_setA_ne _ _ hr

theorem broadcast_queues_frame {M : Type} (K : HubKind M) (env : Nat → ClientInfo)
    (m : M) (s : HubState M) (c : Nat)
    (hc : ∀ clients, lookupA (K.roomOf m) s.rooms = some clients → c ∉ clients) :
    lookupA c (broadcastMessage K env m s).queues = lookupA c s.queues := by
  unfold broadcastMessage
  cases hl : lookupA (K.roomOf m) s.rooms with
  | none => rfl
  | some clients => exact bcast_fold_queues_frame K env m clients c (hc clients hl) _

theorem broadcast_surv_nodup {M : Type} (K : HubKind M) (env : Nat → ClientInfo)
    (m : M) (s : HubState M) (clients : List Nat) (hnd : clients.Nodup) :
    (clients.foldl (bcastStep K env m) (s.queues, [])).2.Nodup := by
  have h := bcast_fold_surv_sublist K env m clients (s.queues, [])
  simp only [List.nil_append] at h
  exact h.nodup hnd

/-! ### Auxiliary lemmas -/

theorem mem_setA {α : Type} {p : Nat × α} {k : Nat} {v : α} {l : List (Nat × α)}
    (hp : p ∈ setA k v l) : p = (k, v) ∨ p ∈ l := by
  induction l with
  | nil => simpa [setA] using hp
  | cons hd tl ih =>
    obtain ⟨k', v'⟩ := hd
    simp only [setA] at hp
    split at hp
    · rcases List.mem_cons.mp hp with h1 | h1
      · exact Or.inl h1
      · exact Or.inr (List.mem_cons_of_mem _ h1)
    · rcases List.mem_cons.mp hp with h1 | h1
      · exact Or.inr (List.mem_cons.mpr (Or.inl h1))
      · rcases ih h1 with h2 | h2
        · exact Or.inl h2
        · exact Or.inr (List.mem_cons_of_mem _ h2)

theorem mem_eraseA {α : Type} {p : Nat × α} {k : Nat} {l : List (Nat × α)}
    (hp : p ∈ eraseA k l) : p ∈ l := by
  induction l with
  | nil => simp [eraseA] at hp
  | cons hd tl ih =>
    obtain ⟨k', v'⟩ := hd
    simp only [eraseA] at hp
    split at hp
    · exact List.mem_cons_of_mem _ hp
    · rcases List.mem_cons.mp hp with h1 | h1
      · exact List.mem_cons.mpr (Or.inl h1)
      · exact List.mem_cons_of_mem _ (ih h1)

theorem lookupA_eq_none_of_not_mem_keys {α : Type} {k : Nat} {l : List (Nat × α)}
    (h : k ∉ l.map Prod.fst) : lookupA k l = none := by
  induction l with
  | nil => rfl
  | cons hd tl ih =>
    obtain ⟨k', v'⟩ := hd
    simp only [List.map_cons, List.mem_cons, not_or] at h
    obtain ⟨h1, h2⟩ := h
    simp only [lookupA, if_neg h1]
    exact ih h2

theorem lookupA_eraseA_self {α : Type} {k : Nat} {l : List (Nat × α)}
    (h : (l.map Prod.fst).Nodup) : lookupA k (eraseA k l) = none := by
  induction l with
  | nil => rfl
  | cons hd tl ih =>
    obtain ⟨k', v'⟩ := hd
    by_cases hk : k = k'
    · subst hk
      simp only [eraseA, if_pos rfl]
      exact lookupA_eq_none_of_not_mem_keys (List.nodup_cons.mp h).1
    · simp only [eraseA, if_neg hk, lookupA, if_neg hk]
      exact ih (List.nodup_cons.mp h).2

theorem takeFromQueue_length {M : Type} (q : List M) :
    takeFromQueue q.length q = (q, []) := by
  induction q with
  | nil => rfl
  | cons x q ih => simp [takeFromQueue, List.length_cons, ih]

theorem writePumpFramesAux_nil {M : Type} (n : Nat) :
    writePumpFramesAux n ([] : List M) = [] := by
  cases n <;> rfl

/-- The write pump emits the queue's messages in queue order: concatenating
its frames gives back exactly the queue. -/
theorem writePumpDelivered_eq {M : Type} (q : List M) : writePumpDelivered q = q := by
  cases q with
  | nil => rfl
  | cons x q =>
    unfold writePumpDelivered writePumpFrames writePumpFramesAux
    simp [takeFromQueue_length, writePumpFramesAux_nil]

theorem lookupA_mem {α : Type} {k : Nat} {v : α} {l : List (Nat × α)}
    (h : lookupA k l = some v) : (k, v) ∈ l := by
  induction l with
  | nil => exact absurd h (by simp [lookupA])
  | cons hd tl ih =>
    obtain ⟨k', v'⟩ := hd
    simp only [lookupA] at h
    split at h
    · rename_i heq
      obtain rfl : v' = v := Option.some.inj h
      subst heq
      exact List.mem_cons_self _ _
    · exact List.mem_cons_of_mem _ (ih h)

/-- The read loop's exit flag stays `false` while the transport reports no
error: no unregister is triggered from inside the loop. -/
theorem readPumpLoop_stays_open (decode : List Nat → Option Message)
    (c : ClientInfo) (now : Nat) :
    ∀ frames : List Frame, (∀ f ∈ frames, f ≠ Frame.errFrame) →
      (readPumpLoop decode c now frames).2 = false := by
  intro frames
  induction frames with
  | nil => intro _; rfl
  | cons f fr ih =>
    intro hf
    have h2 : ∀ g ∈ fr, g ≠ Frame.errFrame :=
      fun g hm => hf g (List.mem_cons_of_mem _ hm)
    cases f with
    | errFrame => exact absurd rfl (hf _ (List.mem_cons_self _ _))
    | data b =>
      cases hd : decode b with
      | none => simpa [readPumpLoop, hd] using ih h2
      | some m => simpa [readPumpLoop, hd] using ih h2

/-- Every message the read loop forwards went through `applyClientInfo`. -/
theorem readPumpLoop_identity (decode : List Nat → Option Message)
    (c : ClientInfo) (now : Nat) :
    ∀ frames : List Frame, ∀ m ∈ (readPumpLoop decode c now frames).1,
      m.roomID = c.roomID ∧ m.userID = c.userID := by
  intro frames
  induction frames with
  | nil => intro m hm; exact absurd hm (by simp [readPumpLoop])
  | cons f fr ih =>
    intro m hm
    cases f with
    | errFrame => exact absurd hm (by simp [readPumpLoop])
    | data b =>
      cases hd : decode b with
      | none =>
        simp only [readPumpLoop, hd] at hm
        exact ih m hm
      | some m0 =>
        simp only [readPumpLoop, hd, List.mem_cons] at hm
        rcases hm with hm | hm
        · subst hm; exact ⟨rfl, rfl⟩
        · exact ih m hm

/-- Overwriting the identity fields erases any difference confined to them. -/
theorem applyClientInfo_congr (c : ClientInfo) (now : Nat) {m1 m2 : Message}
    (ht : m1.type = m2.type) (hd : m1.data = m2.data) :
    applyClientInfo c now m1 = applyClientInfo c now m2 := by
  cases m1; cases m2
  simp only [applyClientInfo]
  simp_all

theorem unregisterClient_not_found {M : Type} (env : Nat → ClientInfo) (cid : Nat)
    (s : HubState M) (h : lookupA (env cid).roomID s.rooms = none) :
    unregisterClient env cid s = s := by
  unfold unregisterClient
  rw [h]

theorem unregisterClient_not_mem {M : Type} (env : Nat → ClientInfo) (cid : Nat)
    (s : HubState M) (clients : List Nat)
    (h : lookupA (env cid).roomID s.rooms = some clients) (hc : cid ∉ clients) :
    unregisterClient env cid s = s := by
  unfold unregisterClient
  rw [h]
  simp [hc]

theorem unregisterClient_mem {M : Type} (env : Nat → ClientInfo) (cid : Nat)
    (s : HubState M) (clients : List Nat)
    (h : lookupA (env cid).roomID s.rooms = some clients) (hc : cid ∈ clients) :
    unregisterClient env cid s =
      { rooms :=
          if (clients.erase cid).isEmpty then eraseA (env cid).roomID s.rooms
          else setA (env cid).roomID (clients.erase cid) s.rooms,
        queues := modifyA cid SendQueue.closeCh s.queues } := by
  unfold unregisterClient
  rw [h]
  simp only [if_pos hc]
  by_cases he : (clients.erase cid).isEmpty <;> simp [he]

/-! ### Claim theorems -/

set_option maxRecDepth 10000 in
/-- C3 counterexample: a reachable registry state violating "a room id is a
key iff its set is non-empty". Register client 0 in room 10 and broadcast 257
events from another user: the 257th broadcast finds the channel full, closes
it and removes the client from the set, but `broadcastMessage` never deletes
the emptied room entry — room 10 remains a key mapped to the empty set. -/
theorem C3_counterexample :
    lookupA 10 (execOps chatKind envLeak opsLeak).rooms = some [] ∧
    ¬ roomsInvariant (execOps chatKind envLeak opsLeak) := by
  have h : lookupA 10 (execOps chatKind envLeak opsLeak).rooms = some [] := by rfl
  exact ⟨h, fun hinv => hinv (10, []) (lookupA_mem h) rfl⟩

/-- C3 (amended): `registerClient` and `unregisterClient` preserve the
invariant that every room key maps to a non-empty set — unregister deletes an
emptied room entry in the same step — but the slow-consumer removal inside
`broadcastMessage` does not delete the room entry, so broadcasts can leave a
room key with an empty set (see the reachable counterexample). -/
theorem C3_register_unregister_cleanup {M : Type} (env : Nat → ClientInfo)
    (cid : Nat) (s : HubState M) (hinv : roomsInvariant s) :
    roomsInvariant (registerClient env cid s) ∧
    roomsInvariant (unregisterClient env cid s) := by
  constructor
  · intro p hp
    unfold registerClient at hp
    split at hp
    · exact hinv p hp
    · rcases mem_setA hp with hpv | hpv
      · subst hpv
        simp
      · exact hinv p hpv
  · intro p hp
    cases hl : lookupA (env cid).roomID s.rooms with
    | none =>
      rw [unregisterClient_not_found env cid s hl] at hp
      exact hinv p hp
    | some clients =>
      by_cases hc : cid ∈ clients
      · rw [unregisterClient_mem env cid s clients hl hc] at hp
        by_cases he : (clients.erase cid).isEmpty
        · rw [if_pos he] at hp
          exact hinv p (mem_eraseA hp)
        · rw [if_neg he] at hp
          rcases mem_setA hp with hpv | hpv
          · subst hpv
            intro hnil
            have hnil2 : clients.erase cid = [] := hnil
            rw [hnil2] at he
            exact he rfl
          · exact hinv p hpv
      · rw [unregisterClient_not_mem env cid s clients hl hc] at hp
        exact hinv p hp

/-- C3 witness: invariant preservation at the concrete spec scenario. -/
theorem C3_witness :
    roomsInvariant (registerClient envChat3 0 stChat3) ∧
    roomsInvariant (unregisterClient envChat3 0 stChat3) :=
  C3_register_unregister_cleanup envChat3 0 stChat3
    (by unfold roomsInvariant; decide)

/-- C4: unregister is idempotent — a second unregister of the same connection
is a state no-op, unregistering a connection in no room's set leaves the
registry unchanged, and a registered connection's outbound channel is closed
exactly once across both calls (its close count rises from `q.closeCount` to
`q.closeCount + 1`, with no second close). -/
theorem C4_unregister_idempotent {M : Type} (env : Nat → ClientInfo) (cid : Nat)
    (s : HubState M) (hwf : WFState s) :
    unregisterClient env cid (unregisterClient env cid s) =
      unregisterClient env cid s ∧
    ((∀ l, lookupA (env cid).roomID s.rooms = some l → cid ∉ l) →
      unregisterClient env cid s = s) ∧
    (∀ l q, lookupA (env cid).roomID s.rooms = some l → cid ∈ l →
      lookupA cid s.queues = some q →
      lookupA cid (unregisterClient env cid (unregisterClient env cid s)).queues =
        some q.closeCh) := by
  obtain ⟨hkeys, hsets⟩ := hwf
  have hmain : unregisterClient env cid (unregisterClient env cid s) =
      unregisterClient env cid s := by
    cases hl : lookupA (env cid).roomID s.rooms with
    | none =>
      have h1 := unregisterClient_not_found env cid s hl
      rw [h1]
      exact h1
    | some clients =>
      by_cases hc : cid ∈ clients
      · have hclnd : clients.Nodup := hsets _ (lookupA_mem hl)
        have h1 := unregisterClient_mem env cid s clients hl hc
        by_cases he : (clients.erase cid).isEmpty
        · rw [h1, if_pos he]
          rw [unregisterClient_not_found env cid _ (lookupA_eraseA_self hkeys)]
        · rw [h1, if_neg he]
          rw [unregisterClient_not_mem env cid _ (clients.erase cid)
            (lookupA_setA_self _ _ _) hclnd.not_mem_erase]
      · have h1 := unregisterClient_not_mem env cid s clients hl hc
        rw [h1]
        exact h1
  refine ⟨hmain, ?_, ?_⟩
  · intro hnm
    cases hl : lookupA (env cid).roomID s.rooms with
    | none => exact unregisterClient_not_found env cid s hl
    | some clients => exact unregisterClient_not_mem env cid s clients hl (hnm clients hl)
  · intro l q hl hc hq
    rw [hmain, unregisterClient_mem env cid s l hl hc]
    show lookupA cid (modifyA cid SendQueue.closeCh s.queues) = _
    rw [lookupA_modifyA_self, hq]
    rfl

/-- C4 witness: double-unregister of connection 0 in the spec scenario. -/
theorem C4_witness :
    unregisterClient envChat3 0 (unregisterClient envChat3 0 stChat3) =
      unregisterClient envChat3 0 stChat3 ∧
    ((∀ l, lookupA (envChat3 0).roomID stChat3.rooms = some l → 0 ∉ l) →
      unregisterClient envChat3 0 stChat3 = stChat3) ∧
    (∀ l q, lookupA (envChat3 0).roomID stChat3.rooms = some l → 0 ∈ l →
      lookupA 0 stChat3.queues = some q →
      lookupA 0 (unregisterClient envChat3 0
          (unregisterClient envChat3 0 stChat3)).queues = some q.closeCh) :=
  C4_unregister_idempotent envChat3 0 stChat3 (by constructor <;> decide)

/-- C2: when connection X's outbound channel is full, broadcasting to X's
room terminates with no error value (the call is a total function of the
state), X is removed from the room's set with its channel closed, and every
other non-suppressed member with channel space still has the event
enqueued. -/
theorem C2_slow_consumer {M : Type} (K : HubKind M) (env : Nat → ClientInfo)
    (m : M) (s : HubState M) (clients : List Nat) (X : Nat) (qX : SendQueue M)
    (hr : lookupA (K.roomOf m) s.rooms = some clients) (hnd : clients.Nodup)
    (hX : X ∈ clients) (hqX : lookupA X s.queues = some qX)
    (hfull : queueCap ≤ qX.buf.length) (hsupX : K.suppress (env X) m = false) :
    (∃ surv, lookupA (K.roomOf m) (broadcastMessage K env m s).rooms =
        some surv ∧ X ∉ surv) ∧
    lookupA X (broadcastMessage K env m s).queues = some qX.closeCh ∧
    (∀ c qc, c ∈ clients → c ≠ X → lookupA c s.queues = some qc →
      qc.buf.length < queueCap → K.suppress (env c) m = false →
      lookupA c (broadcastMessage K env m s).queues =
        some { qc with buf := qc.buf ++ [m] }) := by
  have hdX : deliverTo K env m X qX = (qX.closeCh, false) := by
    simp [deliverTo, hsupX, Nat.not_lt.mpr hfull]
  refine ⟨⟨(clients.foldl (bcastStep K env m) (s.queues, [])).2,
      broadcast_rooms_self K env m s clients hr, ?_⟩, ?_, ?_⟩
  · intro hmem
    have h := (broadcast_surv_iff K env m s clients X qX hnd hX hqX).mp hmem
    rw [hdX] at h
    exact Bool.false_ne_true h
  · have h := broadcast_queues_of_mem K env m s clients X qX hr hnd hX hqX
    rw [hdX] at h
    exact h
  · intro c qc hcmem hcne hqc hlt hsupc
    have hdc : deliverTo K env m c qc = ({ qc with buf := qc.buf ++ [m] }, true) := by
      simp [deliverTo, hsupc, hlt]
    have h := broadcast_queues_of_mem K env m s clients c qc hr hnd hcmem hqc
    rw [hdc] at h
    exact h

/-- C2 witness: room 10 with connection 0's channel at capacity; broadcasting
user 1's `TASK_CREATED` drops 0 (closed, out of the set) and still enqueues
to connection 1. -/
theorem C2_witness :
    (∃ surv, lookupA (chatKind.roomOf msgChatCreated)
        (broadcastMessage chatKind envChat3 msgChatCreated stSlow).rooms =
        some surv ∧ 0 ∉ surv) ∧
    lookupA 0 (broadcastMessage chatKind envChat3 msgChatCreated stSlow).queues =
      some fullQueue.closeCh ∧
    (∀ c qc, c ∈ [0, 1] → c ≠ 0 → lookupA c stSlow.queues = some qc →
      qc.buf.length < queueCap →
      chatKind.suppress (envChat3 c) msgChatCreated = false →
      lookupA c (broadcastMessage chatKind envChat3 msgChatCreated stSlow).queues =
        some { qc with buf := qc.buf ++ [msgChatCreated] }) :=
  C2_slow_consumer chatKind envChat3 msgChatCreated stSlow [0, 1] 0 fullQueue
    rfl (by decide) (by decide) rfl (by simp [fullQueue]) (by decide)

/-- C1 counterexample: in the task hub (part_007), a `TASK_CREATED` broadcast
is NOT enqueued to the in-room connection whose user id equals the event's
originating user id — connection 0 (user 1) is in project 10's set, user 1
originates the event, and connection 0's queue is still empty afterwards,
contradicting "task/board event types such as TASK_CREATED are delivered to
all connections including the sender's". -/
theorem C1_counterexample :
    lookupA 10 stTask2.rooms = some [0, 1] ∧ (0 : Nat) ∈ [0, 1] ∧
    msgTaskCreated.type = TypeTaskCreated ∧
    (envTask2 0).userID = msgTaskCreated.userID ∧
    lookupA 0 (broadcastMessage taskKind envTask2 msgTaskCreated stTask2).queues =
      some SendQueue.empty :=
  ⟨rfl, by decide, rfl, rfl, rfl⟩

/-- C1 (amended): delivery/echo behaviour per hub variant. In the chat hub an
event is enqueued to every in-room connection with channel space — including
the sender's own connections — except that a `TYPING` event is skipped for
connections whose user id equals the event's user id. In the task hub every
event, `TASK_CREATED` included, is skipped for connections whose user id
equals the event's user id, and enqueued for all others. -/
theorem C1_echo_delivery
    (env : Nat → ClientInfo) (m : Message) (s : HubState Message)
    (clients : List Nat) (c : Nat) (q : SendQueue Message)
    (hr : lookupA m.roomID s.rooms = some clients) (hnd : clients.Nodup)
    (hc : c ∈ clients) (hq : lookupA c s.queues = some q)
    (hcap : q.buf.length < queueCap)
    (envT : Nat → ClientInfo) (tm : TMessage) (t : HubState TMessage)
    (tclients : List Nat) (d : Nat) (tq : SendQueue TMessage)
    (htr : lookupA tm.projectID t.rooms = some tclients) (htnd : tclients.Nodup)
    (htc : d ∈ tclients) (htq : lookupA d t.queues = some tq)
    (htcap : tq.buf.length < queueCap) :
    (¬(m.type = MessageTypeTyping ∧ (env c).userID = m.userID) →
      lookupA c (broadcastMessage chatKind env m s).queues =
        some { q with buf := q.buf ++ [m] }) ∧
    (m.type = MessageTypeTyping → (env c).userID = m.userID →
      lookupA c (broadcastMessage chatKind env m s).queues = some q) ∧
    ((envT d).userID = tm.userID →
      lookupA d (broadcastMessage taskKind envT tm t).queues = some tq) ∧
    ((envT d).userID ≠ tm.userID →
      lookupA d (broadcastMessage taskKind envT tm t).queues =
        some { tq with buf := tq.buf ++ [tm] }) := by
  have hchat := broadcast_queues_of_mem chatKind env m s clients c q hr hnd hc hq
  have htask := broadcast_queues_of_mem taskKind envT tm t tclients d tq htr htnd htc htq
  refine ⟨?_, ?_, ?_, ?_⟩
  · intro hns
    have hsup : chatKind.suppress (env c) m = false := by
      by_cases h1 : m.type = MessageTypeTyping
      · by_cases h2 : (env c).userID = m.userID
        · exact absurd ⟨h1, h2⟩ hns
        · simp [chatKind, h2]
      · simp [chatKind, h1]
    rw [hchat]
    simp [deliverTo, hsup, hcap]
  · intro h1 h2
    have hsup : chatKind.suppress (env c) m = true := by
      simp [chatKind, h1, h2]
    rw [hchat]
    simp [deliverTo, hsup]
  · intro h1
    have hsup : taskKind.suppress (envT d) tm = true := by
      simp [taskKind, h1]
    rw [htask]
    simp [deliverTo, hsup]
  · intro h1
    have hsup : taskKind.suppress (envT d) tm = false := by
      simp [taskKind, h1]
    rw [htask]
    simp [deliverTo, hsup, htcap]

/-- C1 witness: the amended delivery behaviour at the concrete two-connection
scenarios of both hubs (recipient: connection 0 = user 1). -/
theorem C1_witness :
    (¬(msgChatCreated.type = MessageTypeTyping ∧
        (envChat3 0).userID = msgChatCreated.userID) →
      lookupA 0 (broadcastMessage chatKind envChat3 msgChatCreated stChat3).queues =
        some (⟨[msgChatCreated], false, 0⟩ : SendQueue Message)) ∧
    (msgChatCreated.type = MessageTypeTyping →
      (envChat3 0).userID = msgChatCreated.userID →
      lookupA 0 (broadcastMessage chatKind envChat3 msgChatCreated stChat3).queues =
        some (SendQueue.empty : SendQueue Message)) ∧
    ((envTask2 0).userID = msgTaskCreated.userID →
      lookupA 0 (broadcastMessage taskKind envTask2 msgTaskCreated stTask2).queues =
        some (SendQueue.empty : SendQueue TMessage)) ∧
    ((envTask2 0).userID ≠ msgTaskCreated.userID →
      lookupA 0 (broadcastMessage taskKind envTask2 msgTaskCreated stTask2).queues =
        some (⟨[msgTaskCreated], false, 0⟩ : SendQueue TMessage)) :=
  C1_echo_delivery envChat3 msgChatCreated stChat3 [0, 1] 0 SendQueue.empty
    rfl (by decide) (by decide) rfl (by decide)
    envTask2 msgTaskCreated stTask2 [0, 1] 0 SendQueue.empty
    rfl (by decide) (by decide) rfl (by decide)

/-- C5: per-recipient FIFO — broadcasting E1 then E2 to the same room
appends them in that order to a surviving recipient's outbound queue, and the
write pump emits the queue in order, so E1 occupies the earlier transport
position and E2 the next. -/
theorem C5_fifo_per_recipient {M : Type} (K : HubKind M) (env : Nat → ClientInfo)
    (e1 e2 : M) (s : HubState M) (clients : List Nat) (c : Nat) (q : SendQueue M)
    (hroom : K.roomOf e2 = K.roomOf e1)
    (hr : lookupA (K.roomOf e1) s.rooms = some clients) (hnd : clients.Nodup)
    (hc : c ∈ clients) (hq : lookupA c s.queues = some q)
    (hcap : q.buf.length + 1 < queueCap)
    (hsup1 : K.suppress (env c) e1 = false) (hsup2 : K.suppress (env c) e2 = false) :
    lookupA c (broadcastMessage K env e2 (broadcastMessage K env e1 s)).queues =
      some { q with buf := q.buf ++ [e1, e2] } ∧
    (writePumpDelivered (q.buf ++ [e1, e2]))[q.buf.length]? = some e1 ∧
    (writePumpDelivered (q.buf ++ [e1, e2]))[q.buf.length + 1]? = some e2 := by
  have hcap1 : q.buf.length < queueCap := Nat.lt_of_succ_lt hcap
  have hd1 : deliverTo K env e1 c q = ({ q with buf := q.buf ++ [e1] }, true) := by
    simp [deliverTo, hsup1, hcap1]
  have hq1 : lookupA c (broadcastMessage K env e1 s).queues =
      some { q with buf := q.buf ++ [e1] } := by
    have h := broadcast_queues_of_mem K env e1 s clients c q hr hnd hc hq
    rw [hd1] at h
    exact h
  have hr1 : lookupA (K.roomOf e2) (broadcastMessage K env e1 s).rooms =
      some (clients.foldl (bcastStep K env e1) (s.queues, [])).2 := by
    rw [hroom]
    exact broadcast_rooms_self K env e1 s clients hr
  have hnd1 : (clients.foldl (bcastStep K env e1) (s.queues, [])).2.Nodup :=
    broadcast_surv_nodup K env e1 s clients hnd
  have hc1 : c ∈ (clients.foldl (bcastStep K env e1) (s.queues, [])).2 := by
    rw [broadcast_surv_iff K env e1 s clients c q hnd hc hq, hd1]
  have hcap2 : ({ q with buf := q.buf ++ [e1] } : SendQueue M).buf.length < queueCap := by
    simpa using hcap
  have hd2 : deliverTo K env e2 c { q with buf := q.buf ++ [e1] } =
      ({ q with buf := (q.buf ++ [e1]) ++ [e2] }, true) := by
    simp [deliverTo, hsup2, hcap2, hcap]
  have h2 := broadcast_queues_of_mem K env e2 (broadcastMessage K env e1 s)
    _ c _ hr1 hnd1 hc1 hq1
  rw [hd2] at h2
  refine ⟨?_, ?_, ?_⟩
  · rw [h2]
    simp
  · rw [writePumpDelivered_eq, List.getElem?_append_right (Nat.le_refl _)]
    simp
  · rw [writePumpDelivered_eq,
      List.getElem?_append_right (Nat.le_succ_of_le (Nat.le_refl _))]
    simp
/-- C5 witness: `NEW_MESSAGE` from user 2 then `TASK_CREATED` from user 1,
both to room 10, arrive at connection 0's queue and transport in that order. -/
theorem C5_witness :
    lookupA 0 (broadcastMessage chatKind envChat3 msgChatCreated
        (broadcastMessage chatKind envChat3 msgChatFromU2 stChat3)).queues =
      some (⟨[msgChatFromU2, msgChatCreated], false, 0⟩ : SendQueue Message) ∧
    (writePumpDelivered ([msgChatFromU2, msgChatCreated]))[(0 : Nat)]? =
      some msgChatFromU2 ∧
    (writePumpDelivered ([msgChatFromU2, msgChatCreated]))[(0 : Nat) + 1]? =
      some msgChatCreated :=
  C5_fifo_per_recipient chatKind envChat3 msgChatFromU2 msgChatCreated stChat3
    [0, 1] 0 SendQueue.empty rfl rfl (by decide) (by decide) rfl (by decide)
    (by decide) (by decide)

/-- C10 counterexample: the broadcast path does mutate the room-set mapping
while holding only the read lock — the slow-consumer branch of
`broadcastMessage` (part_013 lines 100-104) runs `delete(clients, client)`
under `mu.RLock()`, refuting "the broadcast path performs no mutation under
only the read lock". -/
theorem C10_counterexample :
    LockEvent.mk LockMode.readLock HubEffect.mutateRoomSet ∈
      eventsOf HubMethod.broadcastMessageM := by
  decide

/-- C10 (amended): every room-set mutation does happen at the registry's
single serialization point in the sense that the only methods mutating the
room-set mapping (`registerClient`, `unregisterClient`, `broadcastMessage`)
are invoked solely from the dispatcher loop `Hub.Run`; however the broadcast
path holds only the read lock while mutating, so the write lock is not what
serializes it (see the counterexample). -/
theorem C10_dispatcher_serialization :
    ∀ meth : HubMethod, ∀ e ∈ eventsOf meth, e.eff = HubEffect.mutateRoomSet →
      invokedFromDispatcherOnly meth = true := by
  intro meth
  cases meth <;> decide

/-- C10 witness: the mutation event of `broadcastMessage` is covered by the
dispatcher-only invocation discipline. -/
theorem C10_witness :
    invokedFromDispatcherOnly HubMethod.broadcastMessageM = true :=
  C10_dispatcher_serialization HubMethod.broadcastMessageM
    (LockEvent.mk LockMode.readLock HubEffect.mutateRoomSet) (by decide) (by decide)

/-- C6: broadcasting to room A leaves every other room's entry in the
room-set mapping untouched, and leaves the outbound queue of every connection
that is not in room A's set untouched — the broadcast mutates only room A's
set and the queues of its members. -/
theorem C6_room_isolation {M : Type} (K : HubKind M) (env : Nat → ClientInfo)
    (m : M) (s : HubState M) (B c : Nat) (hB : B ≠ K.roomOf m)
    (hc : ∀ clients, lookupA (K.roomOf m) s.rooms = some clients → c ∉ clients) :
    lookupA B (broadcastMessage K env m s).rooms = lookupA B s.rooms ∧
    lookupA c (broadcastMessage K env m s).queues = lookupA c s.queues :=
  ⟨broadcast_rooms_frame K env m s B hB, broadcast_queues_frame K env m s c hc⟩

/-- C6 witness: broadcasting user 1's `TASK_CREATED` to room 10 leaves room
20's entry and connection 2's queue (registered only to room 20) unchanged. -/
theorem C6_witness :
    lookupA 20 (broadcastMessage chatKind envChat3 msgChatCreated stChat3).rooms =
      lookupA 20 stChat3.rooms ∧
    lookupA 2 (broadcastMessage chatKind envChat3 msgChatCreated stChat3).queues =
      lookupA 2 stChat3.queues :=
  C6_room_isolation chatKind envChat3 msgChatCreated stChat3 20 2 (by decide)
    (fun clients h => by
      have hc : [0, 1] = clients := Option.some.inj h
      subst hc
      decide)

/-- C7: `GetOnlineUsers` is a pure read that returns a duplicate-free list of
user ids; it returns `[]` when the room id is absent; and a user id is listed
exactly when some connection of that user is in the room's set. -/
theorem C7_online_users {M : Type} (env : Nat → ClientInfo) (roomID : Nat)
    (s : HubState M) (u : Nat) :
    (GetOnlineUsers env roomID s).2 = s ∧
    (GetOnlineUsers env roomID s).1.Nodup ∧
    (lookupA roomID s.rooms = none → (GetOnlineUsers env roomID s).1 = []) ∧
    (u ∈ (GetOnlineUsers env roomID s).1 ↔
      ∃ l, lookupA roomID s.rooms = some l ∧ ∃ c ∈ l, (env c).userID = u) := by
  unfold GetOnlineUsers
  cases hl : lookupA roomID s.rooms with
  | none =>
    refine ⟨rfl, List.nodup_nil, fun _ => rfl, ?_⟩
    simp
  | some l =>
    refine ⟨rfl, List.nodup_dedup _, fun h => (by simp at h), ?_⟩
    simp only [List.mem_dedup, List.mem_map, Option.some.injEq]
    constructor
    · rintro ⟨c, hc, hcu⟩
      exact ⟨l, rfl, c, hc, hcu⟩
    · rintro ⟨l', hl', c, hc, hcu⟩
      subst hl'
      exact ⟨c, hc, hcu⟩

/-- C7 witness: in the spec scenario (users 1 and 2 in room 10),
`GetOnlineUsers 10` behaves as claimed, instantiated at user id 1. -/
theorem C7_witness :
    (GetOnlineUsers envChat3 10 stChat3).2 = stChat3 ∧
    (GetOnlineUsers envChat3 10 stChat3).1.Nodup ∧
    (lookupA 10 stChat3.rooms = none → (GetOnlineUsers envChat3 10 stChat3).1 = []) ∧
    (1 ∈ (GetOnlineUsers envChat3 10 stChat3).1 ↔
      ∃ l, lookupA 10 stChat3.rooms = some l ∧ ∃ c ∈ l, (envChat3 c).userID = 1) :=
  C7_online_users envChat3 10 stChat3 1

/-- C8: the read pump overwrites the client-supplied identity fields with the
connection's registered room id and user id before forwarding: every
forwarded message carries the connection's identity, and two received frames
whose decoded messages differ only in the client-supplied identity fields
produce identical forwarded messages. -/
theorem C8_identity_overwrite (decode : List Nat → Option Message)
    (c : ClientInfo) (now : Nat) (frames : List Frame) :
    (∀ m ∈ (readPumpLoop decode c now frames).1,
      m.roomID = c.roomID ∧ m.userID = c.userID) ∧
    (∀ b1 b2 m1 m2, decode b1 = some m1 → decode b2 = some m2 →
      m1.type = m2.type → m1.data = m2.data →
      readPumpLoop decode c now (Frame.data b1 :: frames) =
        readPumpLoop decode c now (Frame.data b2 :: frames)) := by
  refine ⟨readPumpLoop_identity decode c now frames, ?_⟩
  intro b1 b2 m1 m2 h1 h2 ht hd
  simp only [readPumpLoop, h1, h2]
  rw [applyClientInfo_congr c now ht hd]

/-- C8 witness: instantiated with a concrete decoder on two frames that agree
except in their client-supplied `room_id`/`user_id`. -/
theorem C8_witness :
    (∀ m ∈ (readPumpLoop
        (fun b => some ⟨"NEW_MESSAGE", b.headD 0, b.headD 0, 7, 0⟩)
        ⟨10, 1⟩ 5 []).1, m.roomID = (⟨10, 1⟩ : ClientInfo).roomID ∧
        m.userID = (⟨10, 1⟩ : ClientInfo).userID) ∧
    (∀ b1 b2 m1 m2,
      (fun b : List Nat => some (⟨"NEW_MESSAGE", b.headD 0, b.headD 0, 7, 0⟩ : Message)) b1 = some m1 →
      (fun b : List Nat => some (⟨"NEW_MESSAGE", b.headD 0, b.headD 0, 7, 0⟩ : Message)) b2 = some m2 →
      m1.type = m2.type → m1.data = m2.data →
      readPumpLoop (fun b => some ⟨"NEW_MESSAGE", b.headD 0, b.headD 0, 7, 0⟩)
          ⟨10, 1⟩ 5 (Frame.data b1 :: []) =
        readPumpLoop (fun b => some ⟨"NEW_MESSAGE", b.headD 0, b.headD 0, 7, 0⟩)
          ⟨10, 1⟩ 5 (Frame.data b2 :: [])) :=
  C8_identity_overwrite (fun b => some ⟨"NEW_MESSAGE", b.headD 0, b.headD 0, 7, 0⟩)
    ⟨10, 1⟩ 5 []

/-- C9: a malformed (non-decodable) frame is discarded — processing it
forwards nothing and behaves exactly like never having received it — and
while the transport reports no error the loop never exits, so the connection
is neither closed nor unregistered by malformed frames. -/
theorem C9_malformed_frame (decode : List Nat → Option Message)
    (c : ClientInfo) (now : Nat) (b : List Nat) (rest : List Frame)
    (hbad : decode b = none) :
    readPumpLoop decode c now (Frame.data b :: rest) =
      readPumpLoop decode c now rest ∧
    ∀ frames : List Frame, (∀ f ∈ frames, f ≠ Frame.errFrame) →
      (readPumpLoop decode c now frames).2 = false :=
  ⟨by simp [readPumpLoop, hbad], readPumpLoop_stays_open decode c now⟩

/-- C9 witness: with a decoder rejecting everything, one malformed frame is
dropped and a malformed-only stream leaves the loop running. -/
theorem C9_witness :
    readPumpLoop (fun _ => none) ⟨10, 1⟩ 5 (Frame.data [3] :: []) =
      readPumpLoop (fun _ => none) ⟨10, 1⟩ 5 [] ∧
    ∀ frames : List Frame, (∀ f ∈ frames, f ≠ Frame.errFrame) →
      (readPumpLoop (fun _ => none) ⟨10, 1⟩ 5 frames).2 = false :=
  C9_malformed_frame (fun _ => none) ⟨10, 1⟩ 5 [3] [] rfl

end Hub
